import Mathlib

set_option maxRecDepth 8192
set_option maxHeartbeats 1000000

/-!
Verification development for the ARISS article generator
(src/ariss-article-generator.py).

The Python program is shallowly embedded below: Python strings are Lean
strings, Python exceptions are values of `PyErr` propagated through
`Except`, the mutable `ArissContact` object is threaded through explicit
state-passing folds that mirror the program's `for` loops, and
`datetime`/`zoneinfo` values are plain records over `Nat`.
-/

deriving instance DecidableEq for Except

/-- Python exception kinds reachable in the embedded code paths:
`IndexError` from a failing list subscript, `ValueError` from date parsing,
`AttributeError` from calling a method on `None`. -/
inductive PyErr where
  | indexError : PyErr
  | valueError : String → PyErr
  | attributeError : PyErr
deriving DecidableEq

/-- The characters Python's `str.strip()` removes (the feed is ASCII). -/
def pyWS (ch : Char) : Bool :=
  ch == ' ' || ch == '\t' || ch == '\n' || ch == '\r' || ch == '\x0b' || ch == '\x0c'

/-- Python `s.strip()`: drop leading and trailing whitespace. -/
def pyStrip (s : String) : String :=
  String.mk (((s.data.dropWhile pyWS).reverse.dropWhile pyWS).reverse)

/-- Python `s.lower()` on the ASCII text the trigger patterns consist of. -/
def pyLower (s : String) : String := String.mk (s.data.map Char.toLower)

/-- Scanner of Python `s.split(sep)` for a non-empty `sep`: emit the chunk
accumulated in `cur` at each non-overlapping left-to-right occurrence of
`sep`.  `fuel` only bounds the recursion and is seeded with the length of
the scanned list, which every step shrinks by at least one. -/
def splitChars (sep : List Char) : Nat → List Char → List Char → List (List Char)
  | _, [], cur => [cur]
  | 0, l, cur => [cur ++ l]
  | fuel + 1, c :: rest, cur =>
    if sep.isPrefixOf (c :: rest) then
      cur :: splitChars sep fuel (List.drop (sep.length - 1) rest) []
    else splitChars sep fuel rest (cur ++ [c])

/-- Python `s.split(sep)` for a non-empty separator: non-overlapping
left-to-right occurrences, empty segments kept. -/
def pySplit (s sep : String) : List String :=
  (splitChars sep.data s.data.length s.data []).map String.mk

/-- Python `s.startswith(p)`. -/
def pyStarts (s p : String) : Bool := p.data.isPrefixOf s.data

/-- Python substring test `sub in s`. -/
def pyContains (s sub : String) : Bool :=
  s.data.tails.any (fun t => sub.data.isPrefixOf t)

/-- Numeric value of a digit run (`none` on any non-digit). -/
def digitsVal : List Char → Nat → Option Nat
  | [], acc => some acc
  | c :: cs, acc =>
    if c.isDigit then digitsVal cs (acc * 10 + (c.toNat - 48)) else none

/-- Python `int(s)` restricted to the plain digit runs the embedded date
parsing feeds it. -/
def pyToNat (s : String) : Option Nat :=
  if s.data.isEmpty then none else digitsVal s.data 0

/-- Python `re.match(r'^\d+\.', s)` viewed as a Boolean: `s` starts with one
or more ASCII digits immediately followed by a period. -/
def startsNumDot (s : String) : Bool :=
  let ds := s.data.takeWhile (fun ch => ch.isDigit)
  !ds.isEmpty && ((s.data.drop ds.length).head? == some '.')

/-- A Python `datetime.datetime` value (microseconds are never used by the
program and are omitted); `tz` models the attached `tzinfo` key. -/
structure PyDatetime where
  year : Nat
  month : Nat
  day : Nat
  hour : Nat
  minute : Nat
  second : Nat
  tz : Option String := none
deriving DecidableEq

/-- A bare calendar date, as produced by `datetime.date()`; used for the
`-d` filter of `main`. -/
structure PyDate where
  year : Nat
  month : Nat
  day : Nat
deriving DecidableEq

/-- The `ArissContact` object with the defaults assigned by `__init__`. -/
structure ArissContact where
  school : String := ""
  location : String := ""
  callsign : String := ""
  frequency : String := ""
  astronaut : String := ""
  astronaut_callsign : String := ""
  date_time : Option PyDatetime := none
  questions : List String := []
  livestream : String := ""
  elevation : String := ""
  contact_type : String := ""
  mentor : String := ""
deriving DecidableEq

/-- The dictionary returned by `generate_wordpress_article`. -/
structure Article where
  title : String
  content : String
  category : String
  status : String
deriving DecidableEq

/-! ### Calendar arithmetic

Models for the pieces of `datetime`, `zoneinfo` and `dateutil` the program
uses.  All arithmetic is over `Nat` for years from 1 onward, which covers
every instant the feed can denote. -/

/-- Gregorian leap-year rule. -/
def isLeap (y : Nat) : Bool := (y % 4 == 0 && y % 100 != 0) || y % 400 == 0

/-- Length of month `m` in year `y`. -/
def daysInMonth (y m : Nat) : Nat :=
  if m = 2 then (if isLeap y then 29 else 28)
  else if m = 4 ∨ m = 6 ∨ m = 9 ∨ m = 11 then 30 else 31

/-- Day count of a civil date in a proleptic-Gregorian linear scale
(Hinnant's `days_from_civil`, shifted so the result stays in `Nat`). -/
def daysFromCivil (y m d : Nat) : Nat :=
  let y' := if m ≤ 2 then y - 1 else y
  let era := y' / 400
  let yoe := y' % 400
  let mp := if m > 2 then m - 3 else m + 9
  let doy := (153 * mp + 2) / 5 + (d - 1)
  let doe := yoe * 365 + yoe / 4 - yoe / 100 + doy
  era * 146097 + doe

/-- Day of the week of a civil date, `0` = Sunday (calibrated so that
1970-01-01 is a Thursday). -/
def dayOfWeek (y m d : Nat) : Nat := (daysFromCivil y m d + 3) % 7

/-- Day-of-month of the last Sunday of a 31-day month `m` of year `y`. -/
def lastSunday (y m : Nat) : Nat := 31 - dayOfWeek y m 31

/-- A datetime collapsed to minutes on the linear day scale, for comparing
instants against the DST switch thresholds (which fall on whole hours). -/
def toMinutes (dt : PyDatetime) : Nat :=
  daysFromCivil dt.year dt.month dt.day * 1440 + dt.hour * 60 + dt.minute

/-- Model of the Europe/Paris UTC offset (in hours) at a UTC instant: CEST
(UTC+2) from 01:00 UTC on the last Sunday of March until 01:00 UTC on the
last Sunday of October, CET (UTC+1) otherwise — the EU rule `zoneinfo`
applies for every year the feed can mention. -/
def parisOffset (dt : PyDatetime) : Nat :=
  let start : PyDatetime := ⟨dt.year, 3, lastSunday dt.year 3, 1, 0, 0, none⟩
  let stop : PyDatetime := ⟨dt.year, 10, lastSunday dt.year 10, 1, 0, 0, none⟩
  if toMinutes start ≤ toMinutes dt ∧ toMinutes dt < toMinutes stop then 2 else 1

/-- The day after a civil date. -/
def nextDay (y m d : Nat) : Nat × Nat × Nat :=
  if d < daysInMonth y m then (y, m, d + 1)
  else if m < 12 then (y, m + 1, 1) else (y + 1, 1, 1)

/-- Model of `datetime.astimezone(ZoneInfo('Europe/Paris'))` for a
UTC-zoned input (the program only ever converts instants it has stored with
`tzinfo=ZoneInfo('UTC')`).  Adding the 1- or 2-hour offset can roll over at
most once into the next day. -/
def parisFromUTC (dt : PyDatetime) : PyDatetime :=
  let off := parisOffset dt
  let h := dt.hour + off
  if h < 24 then
    { dt with hour := h, tz := some "Europe/Paris" }
  else
    let (y, m, d) := nextDay dt.year dt.month dt.day
    { year := y, month := m, day := d, hour := h - 24,
      minute := dt.minute, second := dt.second, tz := some "Europe/Paris" }

/-- English month names accepted by the embedded date parser. -/
def monthFromName (s : String) : Option Nat :=
  match pyLower s with
  | "january" => some 1
  | "february" => some 2
  | "march" => some 3
  | "april" => some 4
  | "may" => some 5
  | "june" => some 6
  | "july" => some 7
  | "august" => some 8
  | "september" => some 9
  | "october" => some 10
  | "november" => some 11
  | "december" => some 12
  | _ => none

/-- A `HH:MM` or `HH:MM:SS` time-of-day token. -/
def parseTimeTok (s : String) : Option (Nat × Nat × Nat) :=
  match pySplit s ":" with
  | [h, m] =>
    match pyToNat h, pyToNat m with
    | some hh, some mm =>
      if hh < 24 ∧ mm < 60 then some (hh, mm, 0) else none
    | _, _ => none
  | [h, m, sec] =>
    match pyToNat h, pyToNat m, pyToNat sec with
    | some hh, some mm, some ss =>
      if hh < 24 ∧ mm < 60 ∧ ss < 60 then some (hh, mm, ss) else none
    | _, _, _ => none
  | _ => none

/-- Model of `dateutil.parser.parse` (third-party code, not in src/)
restricted to the `D MonthName YYYY HH:MM[:SS]` shape the feed uses, per the
spec's wording that the marker text is "parsed as a calendar date+time"
accepting textual month names; every other input is modelled as the
`ValueError` the spec says a parse failure raises. -/
def parseDateutil (s : String) : Except PyErr PyDatetime :=
  match (pySplit s " ").filter (fun t => t != "") with
  | [d, mon, y, t] =>
    match pyToNat d, monthFromName mon, pyToNat y, parseTimeTok t with
    | some dd, some mm, some yy, some (hh, mi, ss) =>
      if 1 ≤ dd ∧ dd ≤ daysInMonth yy mm ∧ 1 ≤ yy then
        Except.ok ⟨yy, mm, dd, hh, mi, ss, none⟩
      else Except.error (PyErr.valueError s)
    | _, _, _, _ => Except.error (PyErr.valueError s)
  | _ => Except.error (PyErr.valueError s)

/-! ### The field-extraction pass of `parse_contacts` -/

/-- Trigger of the school/location/type/callsign rule (line 105). -/
def viaTrigger (line : String) : Bool :=
  pyContains (pyLower line) "direct via" || pyContains (pyLower line) "telebridge via"

/-- Trigger of the frequency rule (line 115). -/
def freqTrigger (line : String) : Bool := pyContains (pyLower line) "frequency"

/-- Trigger of the crewmember rule (line 118). -/
def crewTrigger (line : String) : Bool :=
  pyContains (pyLower line) "scheduled crewmember is"

/-- Trigger of the date rule (line 127, case-sensitive). -/
def goTrigger (line : String) : Bool := pyContains line "Contact is go for:"

/-- Trigger of the livestream rule (line 148, case-sensitive). -/
def liveTrigger (line : String) : Bool :=
  pyContains line "Watch for the Livestream at"

/-- Trigger of the mentor rule (line 151, case-sensitive). -/
def mentorTrigger (line : String) : Bool :=
  pyContains line "The ARISS mentor is"

/-- Body of the `'Contact is go for:'` branch (lines 128-144), i.e. the
contents of the `try:` block.  `line.split('Contact is go for:')[1]` cannot
fail because the branch is only entered when the (case-sensitive) marker is
a substring of the line, and `[0]` of a Python split never fails, so those
two subscripts are written with `getD`; the `line.split('UTC')[1]` subscript
can genuinely raise `IndexError`. -/
def dateGo (c : ArissContact) (line : String) : Except PyErr ArissContact :=
  let date_time_str :=
    pyStrip ((pySplit ((pySplit line "Contact is go for:").getD 1 "") "UTC").getD 0 "")
  match parseDateutil date_time_str with
  | Except.error e => Except.error e
  | Except.ok parsed_dt =>
    let c1 := { c with date_time := some { parsed_dt with tz := some "UTC" } }
    match (pySplit line "UTC")[1]? with
    | none => Except.error PyErr.indexError
    | some e1 =>
      let elevation_str := pyStrip e1
      Except.ok (if elevation_str != "" then { c1 with elevation := elevation_str } else c1)

/-- One iteration of the field-extraction loop (lines 104-152): the
`if`/`elif` chain applied to a single line, updating the contact.  Subscripts
that Python guards by construction (`[0]` of a split; `[1]` of a split under
a `len > 1` test) are written with `getD`; all others go through `get?` and
raise `IndexError` when absent.  Only the date branch catches an exception,
and only `ValueError`. -/
def processLine (c : ArissContact) (line : String) : Except PyErr ArissContact :=
  if viaTrigger line then
    let school_info := pySplit line ","
    let c1 := { c with school := pyStrip (school_info.getD 0 "") }
    if school_info.length > 1 then
      let c2 := { c1 with location := pyStrip (school_info.getD 1 "") }
      match school_info[2]? with
      | none => Except.error PyErr.indexError
      | some s2 =>
        let contact_type_info := pySplit (pyStrip s2) " via "
        let c3 := { c2 with contact_type := pyStrip (contact_type_info.getD 0 "") }
        if contact_type_info.length > 1 then
          Except.ok { c3 with callsign := pyStrip (contact_type_info.getD 1 "") }
        else Except.ok c3
    else Except.ok c1
  else if freqTrigger line then
    match (pySplit line "be")[1]? with
    | none => Except.error PyErr.indexError
    | some p => Except.ok { c with frequency := pyStrip p }
  else if crewTrigger line then
    match (pySplit line "is")[1]? with
    | none => Except.error PyErr.indexError
    | some p =>
      let crew_info := pyStrip p
      if pyContains crew_info " " then
        let name_parts := pySplit crew_info " "
        Except.ok { c with
          astronaut :=
            if name_parts.length > 1 then String.intercalate " " name_parts.dropLast
            else crew_info,
          astronaut_callsign :=
            if name_parts.length > 1 then name_parts.getLastD "" else "" }
      else Except.ok { c with astronaut := crew_info }
  else if goTrigger line then
    match dateGo c line with
    | Except.error PyErr.indexError => Except.error PyErr.indexError
    | Except.error PyErr.attributeError => Except.error PyErr.attributeError
    | Except.error (PyErr.valueError _) => Except.ok c
    | Except.ok c' => Except.ok c'
  else if liveTrigger line then
    match (pySplit line "at")[1]? with
    | none => Except.error PyErr.indexError
    | some p => Except.ok { c with livestream := pyStrip p }
  else if mentorTrigger line then
    match (pySplit line "is")[1]? with
    | none => Except.error PyErr.indexError
    | some p => Except.ok { c with mentor := pyStrip p }
  else Except.ok c

/-- The field-extraction loop over a block's lines (the first `for line in
lines` loop). -/
def foldLines (c : ArissContact) : List String → Except PyErr ArissContact
  | [] => Except.ok c
  | l :: ls =>
    match processLine c l with
    | Except.error e => Except.error e
    | Except.ok c' => foldLines c' ls

/-- The question-extraction loop (lines 154-162), mirroring the
`questions_started` flag: the produced list is the sequence of appended
`line.strip()` values in order. -/
def questionsGo (started : Bool) : List String → List String
  | [] => []
  | l :: ls =>
    if pyContains l "Proposed questions" then questionsGo true ls
    else if started && (pyStrip l != "") && !(pyStarts l "===") then
      if startsNumDot (pyStrip l) then pyStrip l :: questionsGo started ls
      else questionsGo started ls
    else questionsGo started ls

/-- All questions extracted from a block's lines. -/
def questionsOf (lines : List String) : List String := questionsGo false lines

/-- Parsing of one non-blank section: a fresh `ArissContact`, the field
loop over `section.strip().split('\n')`, then the question loop. -/
def parseSection (sec : String) : Except PyErr ArissContact :=
  let lines := pySplit (pyStrip sec) "\n"
  match foldLines {} lines with
  | Except.error e => Except.error e
  | Except.ok c => Except.ok { c with questions := questionsOf lines }

/-- The delimiter of the `re.split` on line 95: the literal run of exactly
seventy `=` characters spelled out in the source regex. -/
def delim70 : String := String.mk (List.replicate 70 '=')

/-- The `for section in contact_sections` loop: blank sections are skipped,
and a parsed contact is appended only when its school is non-empty
(`if contact.school:`). -/
def foldSections (acc : List ArissContact) : List String → Except PyErr (List ArissContact)
  | [] => Except.ok acc
  | s :: rest =>
    if pyStrip s == "" then foldSections acc rest
    else
      match parseSection s with
      | Except.error e => Except.error e
      | Except.ok c =>
        foldSections (if c.school == "" then acc else acc ++ [c]) rest

/-- `ArissArticleGenerator.parse_contacts`: split the raw text on the fixed
delimiter and process every section. -/
def parse_contacts (raw_text : String) : Except PyErr (List ArissContact) :=
  foldSections [] (pySplit raw_text delim70)

/-- The non-blank sections of the newsletter, in source order. -/
def splitSections (raw_text : String) : List String :=
  (pySplit raw_text delim70).filter (fun s => !(pyStrip s == ""))

/-- Section processing without the blank-skipping test, used to state that
`parse_contacts` depends only on the non-blank sections. -/
def foldSectionsNB (acc : List ArissContact) : List String → Except PyErr (List ArissContact)
  | [] => Except.ok acc
  | s :: rest =>
    match parseSection s with
    | Except.error e => Except.error e
    | Except.ok c =>
      foldSectionsNB (if c.school == "" then acc else acc ++ [c]) rest

/-! ### `generate_wordpress_article` -/

/-- Two-digit zero padding, as `strftime` applies with `%d`, `%m`, `%H`,
`%M`. -/
def pad2 (n : Nat) : String := if n < 10 then "0" ++ toString n else toString n

/-- `strftime("%d/%m/%Y")` (the feed's years are four digits, so `%Y` needs
no padding). -/
def fmtDMY (dt : PyDatetime) : String :=
  pad2 dt.day ++ "/" ++ pad2 dt.month ++ "/" ++ toString dt.year

/-- `strftime("%H:%M")`. -/
def fmtHM (dt : PyDatetime) : String := pad2 dt.hour ++ ":" ++ pad2 dt.minute

/-- French weekday names (`%A` under the fr_FR locale the program sets),
indexed by `dayOfWeek`. -/
def frWeekdayName (w : Nat) : String :=
  match w with
  | 0 => "dimanche"
  | 1 => "lundi"
  | 2 => "mardi"
  | 3 => "mercredi"
  | 4 => "jeudi"
  | 5 => "vendredi"
  | _ => "samedi"

/-- French month names (`%B` under the fr_FR locale). -/
def frMonthName (m : Nat) : String :=
  match m with
  | 1 => "janvier"
  | 2 => "février"
  | 3 => "mars"
  | 4 => "avril"
  | 5 => "mai"
  | 6 => "juin"
  | 7 => "juillet"
  | 8 => "août"
  | 9 => "septembre"
  | 10 => "octobre"
  | 11 => "novembre"
  | _ => "décembre"

/-- `strftime('%A %d %B %Y')` under the fr_FR locale the program installs
(the English-locale fallback only changes these display names and is
outside every claim). -/
def fmtLong (dt : PyDatetime) : String :=
  frWeekdayName (dayOfWeek dt.year dt.month dt.day) ++ " " ++ pad2 dt.day ++ " "
    ++ frMonthName dt.month ++ " " ++ toString dt.year

/-- The opening f-string of the article body (lines 180-185). -/
def introText (c : ArissContact) (dt paris : PyDatetime) : String :=
  "Un contact radioamateur est prévu le " ++ pyLower (fmtLong paris) ++ " vers "
    ++ fmtHM dt ++ " UTC (" ++ fmtHM paris ++ " heure de Paris).\n\nIl aura lieu entre l\x27astronaute "
    ++ c.astronaut ++ " (" ++ c.astronaut_callsign ++ ") et " ++ c.school ++ " en "
    ++ c.location ++ ".\n\nLe contact sera sur " ++ c.frequency
    ++ " (+/-3 KHz de doppler) en FM étroite. Il sera " ++ c.contact_type
    ++ " par la station " ++ c.callsign ++ " et donc audible depuis la France.\n"

/-- The conditional livestream paragraph (line 188). -/
def lsText (ls : String) : String :=
  "\nUn livestream sera disponible sur : " ++ ls ++ "\n"

/-- The separator and questions heading (line 190). -/
def moreText : String := "\n<!-- more -->\n\nQuestions prévues :\n\n"

/-- The question lines appended one per line (lines 192-193). -/
def questionsText (qs : List String) : String :=
  String.join (qs.map (fun q => q ++ "\n"))

/-- The closing paragraph (line 195). -/
def closingText : String :=
  "\nL\x27équipe ARISS se tient à votre disposition pour tout support relatif à l\x27écoute de ce contact.\n\n73 et bonne écoute"

/-- `ArissArticleGenerator.generate_wordpress_article`: calling it with
`date_time = None` is the `AttributeError` Python would raise on
`None.astimezone`; otherwise it renders the article dictionary. -/
def generate_wordpress_article (c : ArissContact) : Except PyErr Article :=
  match c.date_time with
  | none => Except.error PyErr.attributeError
  | some dt =>
    let paris_time := parisFromUTC dt
    Except.ok
      { title := "Contact radioamateur du " ++ fmtDMY paris_time ++ " – " ++ c.callsign
        content :=
          introText c dt paris_time
            ++ (if c.livestream == "" then "" else lsText c.livestream)
            ++ moreText ++ questionsText c.questions ++ closingText
        category := "Contact ARISS"
        status := "draft" }

/-! ### The rendering loop of `main` -/

/-- The per-contact test of `main`'s loop (lines 313-323): only contacts
with a date are processed, and under a `-d` filter only those whose stored
(UTC) year/month/day equal the target date. -/
def dateMatches (target : Option PyDate) (c : ArissContact) : Bool :=
  match c.date_time with
  | none => false
  | some dt =>
    match target with
    | none => true
    | some d => dt.year == d.year && dt.month == d.month && dt.day == d.day

/-- The contacts `main` renders, in order, given an optional date filter. -/
def renderedContacts (target : Option PyDate) (contacts : List ArissContact) :
    List ArissContact :=
  contacts.filter (dateMatches target)

/-! ### Which rule of the `if`/`elif` chain a line reaches

One predicate per `elif` arm, true exactly when the chain dispatches the
line to that arm: the arm's own trigger holds and every earlier trigger
fails. -/

/-- The line reaches the frequency rule. -/
def firesFreq (line : String) : Bool := !viaTrigger line && freqTrigger line

/-- The line reaches the crewmember rule. -/
def firesCrew (line : String) : Bool :=
  !viaTrigger line && !freqTrigger line && crewTrigger line

/-- The line reaches the go-for-date rule. -/
def firesGo (line : String) : Bool :=
  !viaTrigger line && !freqTrigger line && !crewTrigger line && goTrigger line

/-- The line reaches the livestream rule. -/
def firesLive (line : String) : Bool :=
  !viaTrigger line && !freqTrigger line && !crewTrigger line && !goTrigger line
    && liveTrigger line

/-- The line reaches the mentor rule. -/
def firesMentor (line : String) : Bool :=
  !viaTrigger line && !freqTrigger line && !crewTrigger line && !goTrigger line
    && !liveTrigger line && mentorTrigger line

/-- The astronaut name the crewmember rule extracts from a line, as a
function of the line alone (`none` when `line.split('is')[1]` would raise):
the trimmed segment between the first two occurrences of `is`, then the
space-token split of lines 120-125. -/
def crewNameOf (line : String) : Option String :=
  ((pySplit line "is")[1]?).map (fun p =>
    let crew_info := pyStrip p
    if pyContains crew_info " " then
      if (pySplit crew_info " ").length > 1 then
        String.intercalate " " (pySplit crew_info " ").dropLast
      else crew_info
    else crew_info)

/-! ### Helper lemmas -/

theorem string_data_append (a b : String) : (a ++ b).data = a.data ++ b.data := by
  cases a
  cases b
  rfl

theorem pyContains_iff (s sub : String) :
    pyContains s sub = true ↔ sub.data <:+: s.data := by
  unfold pyContains
  rw [List.any_eq_true]
  constructor
  · rintro ⟨t, ht, hp⟩
    rw [List.mem_tails] at ht
    rw [ List.isPrefixOf_iff_prefix] at hp
    exact List.infix_iff_prefix_suffix.mpr ⟨t, hp, ht⟩
  · intro h
    obtain ⟨t, hp, ht⟩ := List.infix_iff_prefix_suffix.mp h
    exact ⟨t, (List.mem_tails t s.data).mpr ht, ( List.isPrefixOf_iff_prefix).mpr hp⟩

theorem pyContains_append_mid (a pat b : String) :
    pyContains (a ++ pat ++ b) pat = true := by
  rw [pyContains_iff, string_data_append, string_data_append]
  exact ⟨a.data, b.data, by simp⟩

/-- Frame property of the `'Contact is go for:'` branch: on success it can
change only `date_time` and `elevation`. -/
theorem dateGo_frame (c : ArissContact) (line : String) (c' : ArissContact)
    (h : dateGo c line = Except.ok c') :
    c' = { c with date_time := c'.date_time, elevation := c'.elevation } := by
  simp only [dateGo] at h
  split at h
  · exact absurd h (by simp)
  · split at h
    · exact absurd h (by simp)
    · simp only [Except.ok.injEq] at h
      subst h
      split <;> rfl

/-- Frame property of one step of the field-extraction chain: exactly the
first rule whose trigger matches fires, each rule can change only its own
fields, and the always-assigned field of each rule is a function of the
line alone. -/
theorem processLine_frame (c c' : ArissContact) (line : String)
    (h : processLine c line = Except.ok c') :
    (viaTrigger line = true →
      c' = { c with school := c'.school, location := c'.location,
                    contact_type := c'.contact_type, callsign := c'.callsign }
      ∧ c'.school = pyStrip ((pySplit line ",").getD 0 ""))
    ∧ (viaTrigger line = false → freqTrigger line = true →
      c' = { c with frequency := c'.frequency }
      ∧ some c'.frequency = ((pySplit line "be")[1]?).map pyStrip)
    ∧ (viaTrigger line = false → freqTrigger line = false → crewTrigger line = true →
      c' = { c with astronaut := c'.astronaut,
                    astronaut_callsign := c'.astronaut_callsign })
    ∧ (viaTrigger line = false → freqTrigger line = false → crewTrigger line = false →
       goTrigger line = true →
      c' = { c with date_time := c'.date_time, elevation := c'.elevation })
    ∧ (viaTrigger line = false → freqTrigger line = false → crewTrigger line = false →
       goTrigger line = false → liveTrigger line = true →
      c' = { c with livestream := c'.livestream }
      ∧ some c'.livestream = ((pySplit line "at")[1]?).map pyStrip)
    ∧ (viaTrigger line = false → freqTrigger line = false → crewTrigger line = false →
       goTrigger line = false → liveTrigger line = false → mentorTrigger line = true →
      c' = { c with mentor := c'.mentor }
      ∧ some c'.mentor = ((pySplit line "is")[1]?).map pyStrip)
    ∧ (viaTrigger line = false → freqTrigger line = false → crewTrigger line = false →
       goTrigger line = false → liveTrigger line = false → mentorTrigger line = false →
      c' = c) := by
  cases hv : viaTrigger line with
  | true =>
    refine ⟨fun _ => ?_, fun hx _ => by simp [hv] at hx, fun hx _ _ => by simp [hv] at hx,
      fun hx _ _ _ => by simp [hv] at hx, fun hx _ _ _ _ => by simp [hv] at hx,
      fun hx _ _ _ _ _ => by simp [hv] at hx, fun hx _ _ _ _ _ => by simp [hv] at hx⟩
    simp only [processLine, hv, if_true] at h
    split at h
    · split at h
      · exact absurd h (by simp)
      · split at h
        · simp only [Except.ok.injEq] at h
          subst h
          exact ⟨rfl, rfl⟩
        · simp only [Except.ok.injEq] at h
          subst h
          exact ⟨rfl, rfl⟩
    · simp only [Except.ok.injEq] at h
      subst h
      exact ⟨rfl, rfl⟩
  | false =>
    cases hfq : freqTrigger line with
    | true =>
      refine ⟨fun hx => by simp [hv] at hx, fun _ _ => ?_, fun _ hx _ => by simp [hfq] at hx,
        fun _ hx _ _ => by simp [hfq] at hx, fun _ hx _ _ _ => by simp [hfq] at hx,
        fun _ hx _ _ _ _ => by simp [hfq] at hx, fun _ hx _ _ _ _ => by simp [hfq] at hx⟩
      simp only [processLine, hv, hfq, Bool.false_eq_true, if_false, if_true] at h
      cases h1 : (pySplit line "be")[1]? with
      | none => rw [h1] at h; exact absurd h (by simp)
      | some p =>
        rw [h1] at h
        simp only [Except.ok.injEq] at h
        subst h
        exact ⟨rfl, rfl⟩
    | false =>
      cases hcr : crewTrigger line with
      | true =>
        refine ⟨fun hx => by simp [hv] at hx, fun _ hx => by simp [hfq] at hx,
          fun _ _ _ => ?_, fun _ _ hx _ => by simp [hcr] at hx,
          fun _ _ hx _ _ => by simp [hcr] at hx, fun _ _ hx _ _ _ => by simp [hcr] at hx,
          fun _ _ hx _ _ _ => by simp [hcr] at hx⟩
        simp only [processLine, hv, hfq, hcr, Bool.false_eq_true, if_false, if_true] at h
        split at h
        · exact absurd h (by simp)
        · split at h <;> (simp only [Except.ok.injEq] at h; subst h; rfl)
      | false =>
        cases hgo : goTrigger line with
        | true =>
          refine ⟨fun hx => by simp [hv] at hx, fun _ hx => by simp [hfq] at hx,
            fun _ _ hx => by simp [hcr] at hx, fun _ _ _ _ => ?_,
            fun _ _ _ hx _ => by simp [hgo] at hx, fun _ _ _ hx _ _ => by simp [hgo] at hx,
            fun _ _ _ hx _ _ => by simp [hgo] at hx⟩
          simp only [processLine, hv, hfq, hcr, hgo, Bool.false_eq_true, if_false,
            if_true] at h
          cases hd : dateGo c line with
          | error e =>
            rw [hd] at h
            cases e with
            | indexError => exact absurd h (by simp)
            | valueError m =>
              simp only [Except.ok.injEq] at h
              subst h
              rfl
            | attributeError => exact absurd h (by simp)
          | ok c2 =>
            rw [hd] at h
            simp only [Except.ok.injEq] at h
            subst h
            exact dateGo_frame c line _ hd
        | false =>
          cases hlv : liveTrigger line with
          | true =>
            refine ⟨fun hx => by simp [hv] at hx, fun _ hx => by simp [hfq] at hx,
              fun _ _ hx => by simp [hcr] at hx, fun _ _ _ hx => by simp [hgo] at hx,
              fun _ _ _ _ _ => ?_, fun _ _ _ _ hx _ => by simp [hlv] at hx,
              fun _ _ _ _ hx _ => by simp [hlv] at hx⟩
            simp only [processLine, hv, hfq, hcr, hgo, hlv, Bool.false_eq_true, if_false,
              if_true] at h
            cases h1 : (pySplit line "at")[1]? with
            | none => rw [h1] at h; exact absurd h (by simp)
            | some p =>
              rw [h1] at h
              simp only [Except.ok.injEq] at h
              subst h
              exact ⟨rfl, rfl⟩
          | false =>
            cases hmn : mentorTrigger line with
            | true =>
              refine ⟨fun hx => by simp [hv] at hx, fun _ hx => by simp [hfq] at hx,
                fun _ _ hx => by simp [hcr] at hx, fun _ _ _ hx => by simp [hgo] at hx,
                fun _ _ _ _ hx => by simp [hlv] at hx, fun _ _ _ _ _ _ => ?_,
                fun _ _ _ _ _ hx => by simp [hmn] at hx⟩
              simp only [processLine, hv, hfq, hcr, hgo, hlv, hmn, Bool.false_eq_true,
                if_false, if_true] at h
              cases h1 : (pySplit line "is")[1]? with
              | none => rw [h1] at h; exact absurd h (by simp)
              | some p =>
                rw [h1] at h
                simp only [Except.ok.injEq] at h
                subst h
                exact ⟨rfl, rfl⟩
            | false =>
              refine ⟨fun hx => by simp [hv] at hx, fun _ hx => by simp [hfq] at hx,
                fun _ _ hx => by simp [hcr] at hx, fun _ _ _ hx => by simp [hgo] at hx,
                fun _ _ _ _ hx => by simp [hlv] at hx, fun _ _ _ _ _ hx => by simp [hmn] at hx,
                fun _ _ _ _ _ _ => ?_⟩
              simp only [processLine, hv, hfq, hcr, hgo, hlv, hmn, Bool.false_eq_true,
                if_false] at h
              simp only [Except.ok.injEq] at h
              exact h.symm

/-- A line that does not hit the `direct via`/`telebridge via` rule leaves
the school field unchanged. -/
theorem processLine_school (c : ArissContact) (line : String) (c' : ArissContact)
    (hv : viaTrigger line = false) (h : processLine c line = Except.ok c') :
    c'.school = c.school := by
  have hf := processLine_frame c c' line h
  cases h1 : freqTrigger line with
  | true => rw [hf.2.1 hv h1 |>.1]
  | false =>
    cases h2 : crewTrigger line with
    | true => rw [hf.2.2.1 hv h1 h2]
    | false =>
      cases h3 : goTrigger line with
      | true => rw [hf.2.2.2.1 hv h1 h2 h3]
      | false =>
        cases h4 : liveTrigger line with
        | true => rw [hf.2.2.2.2.1 hv h1 h2 h3 h4 |>.1]
        | false =>
          cases h5 : mentorTrigger line with
          | true => rw [hf.2.2.2.2.2.1 hv h1 h2 h3 h4 h5 |>.1]
          | false => rw [hf.2.2.2.2.2.2 hv h1 h2 h3 h4 h5]

/-- Over a run of lines none of which hits the via rule, the school field
is constant. -/
theorem foldLines_school (ls : List String) : ∀ (c c' : ArissContact),
    foldLines c ls = Except.ok c' → (∀ l ∈ ls, viaTrigger l = false) →
    c'.school = c.school := by
  induction ls with
  | nil =>
    intro c c' h _
    simp only [foldLines, Except.ok.injEq] at h
    rw [← h]
  | cons l ls ih =>
    intro c c' h hall
    simp only [foldLines] at h
    cases hp : processLine c l with
    | error e => rw [hp] at h; exact absurd h (by simp)
    | ok c1 =>
      rw [hp] at h
      have h1 : c1.school = c.school :=
        processLine_school c l c1 (hall l (by simp)) hp
      rw [ih c1 c' h (fun x hx => hall x (by simp [hx]))]
      exact h1

/-- Every contact `foldSections` adds to the accumulator has a non-empty
school. -/
theorem foldSections_school (l : List String) : ∀ (acc acc' : List ArissContact),
    foldSections acc l = Except.ok acc' →
    (∀ c ∈ acc, c.school ≠ "") → ∀ c ∈ acc', c.school ≠ "" := by
  induction l with
  | nil =>
    intro acc acc' h hacc
    simp only [foldSections, Except.ok.injEq] at h
    rw [← h]
    exact hacc
  | cons s rest ih =>
    intro acc acc' h hacc
    simp only [foldSections] at h
    by_cases hs : (pyStrip s == "") = true
    · rw [if_pos hs] at h
      exact ih acc acc' h hacc
    · rw [if_neg hs] at h
      cases hp : parseSection s with
      | error e => rw [hp] at h; exact absurd h (by simp)
      | ok c0 =>
        rw [hp] at h
        refine ih _ _ h ?_
        intro c hc
        by_cases h0 : (c0.school == "") = true
        · rw [if_pos h0] at hc
          exact hacc c hc
        · rw [if_neg h0] at hc
          rcases List.mem_append.mp hc with hmem | hmem
          · exact hacc c hmem
          · rw [List.mem_singleton] at hmem
            subst hmem
            simpa using h0

/-- Fields a line leaves untouched: whenever the chain does not dispatch
the line to a rule, that rule's fields pass through unchanged. -/
theorem processLine_untouched (c c1 : ArissContact) (x : String)
    (h : processLine c x = Except.ok c1) :
    (viaTrigger x = false →
      c1.school = c.school ∧ c1.location = c.location
      ∧ c1.contact_type = c.contact_type ∧ c1.callsign = c.callsign)
    ∧ (firesFreq x = false → c1.frequency = c.frequency)
    ∧ (firesCrew x = false →
      c1.astronaut = c.astronaut ∧ c1.astronaut_callsign = c.astronaut_callsign)
    ∧ (firesGo x = false → c1.date_time = c.date_time ∧ c1.elevation = c.elevation)
    ∧ (firesLive x = false → c1.livestream = c.livestream)
    ∧ (firesMentor x = false → c1.mentor = c.mentor) := by
  have hf := processLine_frame c c1 x h
  cases hv : viaTrigger x with
  | true =>
    have hEq := (hf.1 hv).1
    exact ⟨fun hx => Bool.noConfusion hx,
      fun _ => by rw [hEq],
      fun _ => ⟨by rw [hEq], by rw [hEq]⟩,
      fun _ => ⟨by rw [hEq], by rw [hEq]⟩,
      fun _ => by rw [hEq],
      fun _ => by rw [hEq]⟩
  | false =>
    cases hfq : freqTrigger x with
    | true =>
      have hEq := (hf.2.1 hv hfq).1
      have hfire : firesFreq x = true := by simp [firesFreq, hv, hfq]
      exact ⟨fun _ => ⟨by rw [hEq], by rw [hEq], by rw [hEq], by rw [hEq]⟩,
        fun hx => Bool.noConfusion (hfire.symm.trans hx),
        fun _ => ⟨by rw [hEq], by rw [hEq]⟩,
        fun _ => ⟨by rw [hEq], by rw [hEq]⟩,
        fun _ => by rw [hEq],
        fun _ => by rw [hEq]⟩
    | false =>
      cases hcr : crewTrigger x with
      | true =>
        have hEq := hf.2.2.1 hv hfq hcr
        have hfire : firesCrew x = true := by simp [firesCrew, hv, hfq, hcr]
        exact ⟨fun _ => ⟨by rw [hEq], by rw [hEq], by rw [hEq], by rw [hEq]⟩,
          fun _ => by rw [hEq],
          fun hx => Bool.noConfusion (hfire.symm.trans hx),
          fun _ => ⟨by rw [hEq], by rw [hEq]⟩,
          fun _ => by rw [hEq],
          fun _ => by rw [hEq]⟩
      | false =>
        cases hgo : goTrigger x with
        | true =>
          have hEq := hf.2.2.2.1 hv hfq hcr hgo
          have hfire : firesGo x = true := by simp [firesGo, hv, hfq, hcr, hgo]
          exact ⟨fun _ => ⟨by rw [hEq], by rw [hEq], by rw [hEq], by rw [hEq]⟩,
            fun _ => by rw [hEq],
            fun _ => ⟨by rw [hEq], by rw [hEq]⟩,
            fun hx => Bool.noConfusion (hfire.symm.trans hx),
            fun _ => by rw [hEq],
            fun _ => by rw [hEq]⟩
        | false =>
          cases hlv : liveTrigger x with
          | true =>
            have hEq := (hf.2.2.2.2.1 hv hfq hcr hgo hlv).1
            have hfire : firesLive x = true := by
              simp [firesLive, hv, hfq, hcr, hgo, hlv]
            exact ⟨fun _ => ⟨by rw [hEq], by rw [hEq], by rw [hEq], by rw [hEq]⟩,
              fun _ => by rw [hEq],
              fun _ => ⟨by rw [hEq], by rw [hEq]⟩,
              fun _ => ⟨by rw [hEq], by rw [hEq]⟩,
              fun hx => Bool.noConfusion (hfire.symm.trans hx),
              fun _ => by rw [hEq]⟩
          | false =>
            cases hmn : mentorTrigger x with
            | true =>
              have hEq := (hf.2.2.2.2.2.1 hv hfq hcr hgo hlv hmn).1
              have hfire : firesMentor x = true := by
                simp [firesMentor, hv, hfq, hcr, hgo, hlv, hmn]
              exact ⟨fun _ => ⟨by rw [hEq], by rw [hEq], by rw [hEq], by rw [hEq]⟩,
                fun _ => by rw [hEq],
                fun _ => ⟨by rw [hEq], by rw [hEq]⟩,
                fun _ => ⟨by rw [hEq], by rw [hEq]⟩,
                fun _ => by rw [hEq],
                fun hx => Bool.noConfusion (hfire.symm.trans hx)⟩
            | false =>
              have hEq := hf.2.2.2.2.2.2 hv hfq hcr hgo hlv hmn
              exact ⟨fun _ => ⟨by rw [hEq], by rw [hEq], by rw [hEq], by rw [hEq]⟩,
                fun _ => by rw [hEq],
                fun _ => ⟨by rw [hEq], by rw [hEq]⟩,
                fun _ => ⟨by rw [hEq], by rw [hEq]⟩,
                fun _ => by rw [hEq],
                fun _ => by rw [hEq]⟩

/-- The astronaut name the crewmember rule stores is `crewNameOf` of the
line — a function of the line alone, in both the space and the no-space
branch. -/
theorem processLine_crew_astronaut (c c1 : ArissContact) (x : String)
    (hv : viaTrigger x = false) (hfq : freqTrigger x = false)
    (hcr : crewTrigger x = true) (h : processLine c x = Except.ok c1) :
    some c1.astronaut = crewNameOf x := by
  simp only [processLine, hv, hfq, hcr, Bool.false_eq_true, if_false, if_true] at h
  cases hp : (pySplit x "is")[1]? with
  | none => rw [hp] at h; exact absurd h (by simp)
  | some p =>
    rw [hp] at h
    simp only [crewNameOf, hp, Option.map_some']
    simp only at h
    split at h
    · rename_i hsp
      simp only [Except.ok.injEq] at h
      subst h
      simp [hsp]
    · rename_i hsp
      have hsp' : pyContains (pyStrip p) " " = false := by simpa using hsp
      simp only [Except.ok.injEq] at h
      subst h
      simp [hsp']

/-- Splitting the field-extraction fold at a list boundary. -/
theorem foldLines_append (xs ys : List String) : ∀ c : ArissContact,
    foldLines c (xs ++ ys)
      = match foldLines c xs with
        | Except.error e => Except.error e
        | Except.ok c1 => foldLines c1 ys := by
  induction xs with
  | nil => intro c; rfl
  | cons x xs ih =>
    intro c
    rw [List.cons_append]
    simp only [foldLines]
    cases hp : processLine c x with
    | error e => rfl
    | ok c1 => exact ih c1

/-- Generic preservation along the fold: a projection no processed line may
touch is constant over the run. -/
theorem foldLines_keep {α : Type} (f : ArissContact → α) (fires : String → Bool)
    (hstep : ∀ c c1 x, fires x = false → processLine c x = Except.ok c1 →
      f c1 = f c) :
    ∀ (ls : List String) (c c' : ArissContact), (∀ x ∈ ls, fires x = false) →
      foldLines c ls = Except.ok c' → f c' = f c := by
  intro ls
  induction ls with
  | nil =>
    intro c c' _ h
    simp only [foldLines, Except.ok.injEq] at h
    rw [← h]
  | cons x xs ih =>
    intro c c' hall h
    simp only [foldLines] at h
    cases hp : processLine c x with
    | error e => rw [hp] at h; exact absurd h (by simp)
    | ok c1 =>
      rw [hp] at h
      rw [ih c1 c' (fun y hy => hall y (by simp [hy])) h]
      exact hstep c c1 x (hall x (by simp)) hp

/-! ### Claim C1 -/

/-- C1 (counterexample): on the spec's own example line the parser does
store the 2024-03-25T18:30 instant with the UTC zone, but the elevation
field keeps the comma: `line.split('UTC')[1].strip()` yields
", max elevation 45 degrees", not "max elevation 45 degrees", because
`strip` removes whitespace only. -/
theorem go_line_elevation_counterexample :
    processLine {} "Contact is go for: 25 March 2024 18:30 UTC, max elevation 45 degrees"
      = Except.ok { ({} : ArissContact) with
          date_time := some ⟨2024, 3, 25, 18, 30, 0, some "UTC"⟩,
          elevation := ", max elevation 45 degrees" }
      ∧ (", max elevation 45 degrees" : String) ≠ "max elevation 45 degrees" := by
  exact ⟨by decide, by decide⟩

/-- C1 (amended): whatever the contact state, processing the line
"Contact is go for: 25 March 2024 18:30 UTC, max elevation 45 degrees"
stores the scheduled instant 2024-03-25T18:30:00 with the UTC zone attached
and no offset conversion, and sets elevation to ", max elevation 45 degrees"
— the whitespace-trimmed text after the first `UTC` token, on which the
comma survives. -/
theorem go_line_stores_instant_and_elevation (c : ArissContact) :
    processLine c "Contact is go for: 25 March 2024 18:30 UTC, max elevation 45 degrees"
      = Except.ok { c with
          date_time := some ⟨2024, 3, 25, 18, 30, 0, some "UTC"⟩,
          elevation := ", max elevation 45 degrees" } := by
  rfl

/-! ### Claim C2 -/

/-- C2 (counterexample): the parser does raise to its caller.  A
direct-via line whose comma split has exactly two segments reaches
`school_info[2]` and raises `IndexError`; a frequency line with no
occurrence of `be` reaches `line.split('be')[1]` and raises `IndexError`;
neither is caught anywhere in `parse_contacts`. -/
theorem extraction_failure_raises_counterexample :
    parse_contacts "Maple School, direct via W1AW" = Except.error PyErr.indexError
    ∧ parse_contacts "Downlink frequency 145.800" = Except.error PyErr.indexError := by
  exact ⟨by decide, by decide⟩

/-- C2 (amended): failing field extractions are unguarded and raise.  A
`direct via`/`telebridge via` line whose comma split yields exactly two
segments raises an uncaught `IndexError`; a `frequency` line whose split on
`be` yields a single segment raises an uncaught `IndexError`; only the
date branch catches an exception, and only the `ValueError` of a failed
date parse, leaving the contact unchanged. -/
theorem extraction_failures_raise (c : ArissContact) (line : String) :
    (viaTrigger line = true → (pySplit line ",").length = 2 →
      processLine c line = Except.error PyErr.indexError)
    ∧ (viaTrigger line = false → freqTrigger line = true →
        (pySplit line "be").length = 1 →
        processLine c line = Except.error PyErr.indexError)
    ∧ (viaTrigger line = false → freqTrigger line = false →
        crewTrigger line = false → goTrigger line = true →
        ∀ m, dateGo c line = Except.error (PyErr.valueError m) →
          processLine c line = Except.ok c) := by
  refine ⟨?_, ?_, ?_⟩
  · intro hv hlen
    have h2 : (pySplit line ",")[2]? = none := List.getElem?_eq_none (le_of_eq hlen)
    simp [processLine, hv, hlen, h2]
  · intro hv hf hlen
    have h1 : (pySplit line "be")[1]? = none := List.getElem?_eq_none (le_of_eq hlen)
    simp [processLine, hv, hf, h1]
  · intro hv hf hc hg m hd
    simp [processLine, hv, hf, hc, hg, hd]

/-- C2 (witness): the three behaviours at concrete lines. -/
theorem extraction_failures_raise_witness :
    processLine {} "Maple School, direct via W1AW" = Except.error PyErr.indexError
    ∧ processLine {} "Downlink frequency 145.800" = Except.error PyErr.indexError
    ∧ processLine {} "Contact is go for: nonsense UTC" = Except.ok {} := by
  refine ⟨?_, ?_, ?_⟩
  · exact (extraction_failures_raise {} "Maple School, direct via W1AW").1
      (by decide) (by decide)
  · exact (extraction_failures_raise {} "Downlink frequency 145.800").2.1
      (by decide) (by decide) (by decide)
  · exact (extraction_failures_raise {} "Contact is go for: nonsense UTC").2.2
      (by decide) (by decide) (by decide) (by decide) "nonsense" (by decide)

/-! ### Claim C3 -/

/-- C3 (counterexample): the splitter does not treat a general line of
`=` characters as a delimiter — `re.split` is applied to the literal
70-character run, and that run splits even in the middle of a line. -/
theorem delimiter_counterexample :
    splitSections "a\n=\nb" = ["a\n=\nb"]
    ∧ splitSections "a\n=\nb" ≠ ["a", "b"]
    ∧ splitSections ("x" ++ delim70 ++ "y") = ["x", "y"] := by
  refine ⟨by decide, by decide, by decide⟩

theorem foldSections_filter (l : List String) :
    ∀ acc, foldSections acc l
      = foldSectionsNB acc (l.filter (fun s => !(pyStrip s == ""))) := by
  induction l with
  | nil => intro acc; rfl
  | cons s rest ih =>
    intro acc
    cases hs : pyStrip s == "" with
    | true => simp [foldSections, List.filter_cons, hs, ih]
    | false =>
      simp only [foldSections, List.filter_cons, hs, Bool.not_false, if_true]
      cases hp : parseSection s with
      | error e => simp [foldSectionsNB, hp]
      | ok c => simp [foldSectionsNB, hp, ih]

/-- C3 (amended): the section splitter divides the text at each occurrence
of the literal 70-character `=` run (`delim70`), whether or not that run
is a whole line; blank or whitespace-only segments are discarded, and
`parse_contacts` processes exactly the non-blank segments in source
order (a sublist of the raw split). -/
theorem sections_processed (raw_text : String) :
    parse_contacts raw_text = foldSectionsNB [] (splitSections raw_text)
    ∧ (∀ s ∈ splitSections raw_text, pyStrip s ≠ "")
    ∧ (splitSections raw_text).Sublist (pySplit raw_text delim70) := by
  refine ⟨foldSections_filter _ [], ?_, List.filter_sublist _⟩
  intro s hs
  rw [splitSections, List.mem_filter] at hs
  simpa using hs.2

/-! ### Claim C5 -/

/-- C5 (counterexample): `line.split('is')[1]` is the text between the
first and the second occurrence of `is` in the line, not the text after
the first occurrence: since `Luis` contains `is`, the crew info extracted
from this line is `Lu`, so the astronaut name becomes "Lu" (with the
callsign left empty), not name "Luis" and callsign "ABC1". -/
theorem crew_split_counterexample :
    processLine {} "The scheduled crewmember is Luis ABC1"
      = Except.ok { ({} : ArissContact) with astronaut := "Lu" }
    ∧ ("Lu" : String) ≠ "Luis" := by
  exact ⟨by decide, by decide⟩

/-- C5 (amended): for a line reaching the crewmember rule, crew info is
the trimmed segment of the line between the first and second occurrences
of `is` (the whole remainder when `is` occurs only once, and an uncaught
`IndexError` when the case-sensitive split finds no `is` at all); if crew
info contains a space character, the callsign is its last space-delimited
token and the name is the leading tokens joined by single spaces; if it
contains no space, the whole string becomes the name and the callsign is
left unchanged. -/
theorem crew_line_extraction (c : ArissContact) (line p : String)
    (hv : viaTrigger line = false) (hf : freqTrigger line = false)
    (hc : crewTrigger line = true)
    (hp : (pySplit line "is")[1]? = some p) :
    processLine c line = Except.ok (
      if pyContains (pyStrip p) " " then
        { c with
          astronaut :=
            if (pySplit (pyStrip p) " ").length > 1 then
              String.intercalate " " (pySplit (pyStrip p) " ").dropLast
            else pyStrip p,
          astronaut_callsign :=
            if (pySplit (pyStrip p) " ").length > 1 then
              (pySplit (pyStrip p) " ").getLastD ""
            else "" }
      else { c with astronaut := pyStrip p }) := by
  simp [processLine, hv, hf, hc, hp]
  split <;> rfl

/-- C5 (witness): a crew line whose remainder holds no further `is`. -/
theorem crew_line_extraction_witness :
    processLine {} "The scheduled crewmember is John KF5KDR"
      = Except.ok { ({} : ArissContact) with
          astronaut := "John", astronaut_callsign := "KF5KDR" } := by
  have h := crew_line_extraction {} "The scheduled crewmember is John KF5KDR"
    " John KF5KDR" (by decide) (by decide) (by decide) (by decide)
  exact h.trans (by decide)

/-! ### Claim C4 -/

/-- C4: an article is generated only for contacts with both a school and a
scheduled instant: every contact `parse_contacts` returns has a non-empty
school; a block none of whose lines hits the via rule parses to an empty
school and contributes nothing to the contact list; and the rendering loop
of `main` keeps only contacts whose scheduled instant is set. -/
theorem article_requires_school_and_date :
    (∀ raw_text contacts, parse_contacts raw_text = Except.ok contacts →
      ∀ c ∈ contacts, c.school ≠ "")
    ∧ (∀ sec c, (∀ l ∈ pySplit (pyStrip sec) "\n", viaTrigger l = false) →
        parseSection sec = Except.ok c → c.school = "")
    ∧ (∀ sec acc acc', (∀ l ∈ pySplit (pyStrip sec) "\n", viaTrigger l = false) →
        foldSections acc [sec] = Except.ok acc' → acc' = acc)
    ∧ (∀ target contacts c, c ∈ renderedContacts target contacts →
        c.date_time ≠ none) := by
  have hsec : ∀ sec c, (∀ l ∈ pySplit (pyStrip sec) "\n", viaTrigger l = false) →
      parseSection sec = Except.ok c → c.school = "" := by
    intro sec c hall h
    simp only [parseSection] at h
    cases hf : foldLines {} (pySplit (pyStrip sec) "\n") with
    | error e => rw [hf] at h; exact absurd h (by simp)
    | ok cf =>
      rw [hf] at h
      simp only [Except.ok.injEq] at h
      subst h
      exact foldLines_school _ _ _ hf hall
  refine ⟨?_, hsec, ?_, ?_⟩
  · intro raw contacts h c hc
    simp only [parse_contacts] at h
    exact foldSections_school _ _ _ h
      (fun x hx => absurd hx (List.not_mem_nil x)) c hc
  · intro sec acc acc' hall h
    simp only [foldSections] at h
    by_cases hs : (pyStrip sec == "") = true
    · rw [if_pos hs] at h
      simp only [Except.ok.injEq] at h
      exact h.symm
    · rw [if_neg hs] at h
      cases hp : parseSection sec with
      | error e => rw [hp] at h; exact absurd h (by simp)
      | ok c0 =>
        rw [hp] at h
        have h0 : c0.school = "" := hsec sec c0 hall hp
        simp only [foldSections, h0, beq_self_eq_true, if_true,
          Except.ok.injEq] at h
        exact h.symm
  · intro target contacts c hc
    rw [renderedContacts, List.mem_filter] at hc
    cases hdt : c.date_time with
    | none =>
      have h2 := hc.2
      simp only [dateMatches, hdt] at h2
      exact absurd h2 (by simp)
    | some dt => simp [hdt]

/-- C4 (witness): the conjuncts at concrete inputs. -/
theorem article_requires_school_and_date_witness :
    ({ school := "Alpha School", location := "City", contact_type := "direct",
       callsign := "W1AW" } : ArissContact).school ≠ ""
    ∧ ({} : ArissContact).school = ""
    ∧ ([] : List ArissContact) = []
    ∧ ({ date_time := some ⟨2024, 3, 25, 18, 30, 0, some "UTC"⟩ } :
        ArissContact).date_time ≠ none := by
  refine ⟨?_, ?_, ?_, ?_⟩
  · exact article_requires_school_and_date.1 "Alpha School, City, direct via W1AW"
      [{ school := "Alpha School", location := "City", contact_type := "direct",
         callsign := "W1AW" }] (by decide) _ (by decide)
  · exact article_requires_school_and_date.2.1 "hello" {} (by decide) (by decide)
  · exact article_requires_school_and_date.2.2.1 "hello" [] [] (by decide) (by decide)
  · exact article_requires_school_and_date.2.2.2 none
      [{ date_time := some ⟨2024, 3, 25, 18, 30, 0, some "UTC"⟩ }] _ (by decide)

/-! ### Claim C6 -/

/-- C6: with a date filter, a contact possessing a scheduled instant is
rendered exactly when the instant's stored (UTC) calendar date equals the
filter date; without a filter every contact possessing a scheduled instant
is rendered. -/
theorem date_filter_exact (contacts : List ArissContact) (c : ArissContact)
    (dt : PyDatetime) (d : PyDate) (hc : c ∈ contacts)
    (hdt : c.date_time = some dt) :
    (c ∈ renderedContacts (some d) contacts ↔
      (dt.year = d.year ∧ dt.month = d.month ∧ dt.day = d.day))
    ∧ c ∈ renderedContacts none contacts := by
  constructor
  · rw [renderedContacts, List.mem_filter]
    simp [dateMatches, hdt, hc, and_assoc]
  · rw [renderedContacts, List.mem_filter]
    simp [dateMatches, hdt, hc]

/-- C6 (witness): a contact dated 2024-03-25 UTC is kept by the filter for
25/03/2024, kept with no filter, and dropped by the filter for
26/03/2024. -/
theorem date_filter_exact_witness :
    ({ date_time := some ⟨2024, 3, 25, 18, 30, 0, some "UTC"⟩ } : ArissContact)
        ∈ renderedContacts (some ⟨2024, 3, 25⟩)
          [{ date_time := some ⟨2024, 3, 25, 18, 30, 0, some "UTC"⟩ }]
    ∧ ({ date_time := some ⟨2024, 3, 25, 18, 30, 0, some "UTC"⟩ } : ArissContact)
        ∈ renderedContacts none
          [{ date_time := some ⟨2024, 3, 25, 18, 30, 0, some "UTC"⟩ }]
    ∧ ({ date_time := some ⟨2024, 3, 25, 18, 30, 0, some "UTC"⟩ } : ArissContact)
        ∉ renderedContacts (some ⟨2024, 3, 26⟩)
          [{ date_time := some ⟨2024, 3, 25, 18, 30, 0, some "UTC"⟩ }] := by
  refine ⟨?_, ?_, ?_⟩
  · exact (date_filter_exact _ _ ⟨2024, 3, 25, 18, 30, 0, some "UTC"⟩ ⟨2024, 3, 25⟩
      (by decide) rfl).1.mpr ⟨rfl, rfl, rfl⟩
  · exact (date_filter_exact _ _ ⟨2024, 3, 25, 18, 30, 0, some "UTC"⟩ ⟨2024, 3, 25⟩
      (by decide) rfl).2
  · intro hmem
    have h := (date_filter_exact _ _ ⟨2024, 3, 25, 18, 30, 0, some "UTC"⟩ ⟨2024, 3, 26⟩
      (by decide) rfl).1.mp hmem
    exact absurd h.2.2 (by decide)

/-! ### Claim C7 -/

/-- C7: a contact with callsign W1AW whose scheduled instant falls on
26/03/2024 in Europe/Paris local time is rendered with the title
"Contact radioamateur du 26/03/2024 – W1AW". -/
theorem title_for_paris_date (c : ArissContact) (dt : PyDatetime)
    (hdt : c.date_time = some dt) (hcs : c.callsign = "W1AW")
    (hy : (parisFromUTC dt).year = 2024) (hm : (parisFromUTC dt).month = 3)
    (hd : (parisFromUTC dt).day = 26) :
    Except.map Article.title (generate_wordpress_article c)
      = Except.ok "Contact radioamateur du 26/03/2024 – W1AW" := by
  simp only [generate_wordpress_article, hdt, Except.map, fmtDMY, hy, hm, hd, hcs]
  rfl

/-- C7 (witness): 2024-03-26 10:00 UTC falls on 26/03/2024 Paris time
(CET, UTC+1, before the DST switch of 31 March 2024). -/
theorem title_for_paris_date_witness :
    Except.map Article.title
        (generate_wordpress_article
          { callsign := "W1AW",
            date_time := some ⟨2024, 3, 26, 10, 0, 0, some "UTC"⟩ })
      = Except.ok "Contact radioamateur du 26/03/2024 – W1AW" := by
  exact title_for_paris_date _ ⟨2024, 3, 26, 10, 0, 0, some "UTC"⟩ rfl rfl
    (by decide) (by decide) (by decide)

/-! ### Claim C8 -/

theorem string_append_empty (a : String) : a ++ "" = a := by
  cases a with
  | mk l => exact congrArg String.mk (List.append_nil l)

/-- C8: the rendered content carries the livestream paragraph exactly when
the livestream field is non-empty — with a non-empty livestream the
paragraph naming the value occurs in the content, and with an empty
livestream the content is the template with no livestream paragraph
emitted at all; category is always "Contact ARISS" and status always
"draft". -/
theorem livestream_paragraph_iff (c : ArissContact) (dt : PyDatetime)
    (hdt : c.date_time = some dt) :
    Except.map Article.category (generate_wordpress_article c)
      = Except.ok "Contact ARISS"
    ∧ Except.map Article.status (generate_wordpress_article c) = Except.ok "draft"
    ∧ (c.livestream ≠ "" →
        Except.map (fun a => pyContains a.content
            ("Un livestream sera disponible sur : " ++ c.livestream ++ "\n"))
          (generate_wordpress_article c) = Except.ok true)
    ∧ (c.livestream = "" →
        Except.map Article.content (generate_wordpress_article c)
          = Except.ok (introText c dt (parisFromUTC dt)
              ++ moreText ++ questionsText c.questions ++ closingText)) := by
  refine ⟨?_, ?_, ?_, ?_⟩
  · simp [generate_wordpress_article, hdt, Except.map]
  · simp [generate_wordpress_article, hdt, Except.map]
  · intro hne
    have hb : (c.livestream == "") = false := beq_eq_false_iff_ne.mpr hne
    simp only [generate_wordpress_article, hdt, Except.map, hb,
      Bool.false_eq_true, if_false, Except.ok.injEq]
    rw [pyContains_iff]
    have h1 : ("Un livestream sera disponible sur : " ++ c.livestream ++ "\n").data
        <:+: (lsText c.livestream).data := by
      refine ⟨['\x0a'], [], ?_⟩
      simp [lsText, string_data_append]
    have h2 : (lsText c.livestream).data <:+:
        (introText c dt (parisFromUTC dt) ++ lsText c.livestream ++ moreText
          ++ questionsText c.questions ++ closingText).data := by
      refine ⟨(introText c dt (parisFromUTC dt)).data,
        (moreText ++ questionsText c.questions ++ closingText).data, ?_⟩
      simp [string_data_append, List.append_assoc]
    exact h1.trans h2
  · intro hz
    have hb : (c.livestream == "") = true := beq_iff_eq.mpr hz
    simp only [generate_wordpress_article, hdt, Except.map, hb, if_true,
      Except.ok.injEq, string_append_empty]

/-- C8 (witness): both livestream cases at concrete contacts. -/
theorem livestream_paragraph_iff_witness :
    Except.map Article.category
        (generate_wordpress_article
          { date_time := some ⟨2024, 3, 25, 18, 30, 0, some "UTC"⟩,
            livestream := "http://x" }) = Except.ok "Contact ARISS"
    ∧ Except.map Article.status
        (generate_wordpress_article
          { date_time := some ⟨2024, 3, 25, 18, 30, 0, some "UTC"⟩,
            livestream := "http://x" }) = Except.ok "draft"
    ∧ Except.map (fun a => pyContains a.content
          ("Un livestream sera disponible sur : " ++ "http://x" ++ "\n"))
        (generate_wordpress_article
          { date_time := some ⟨2024, 3, 25, 18, 30, 0, some "UTC"⟩,
            livestream := "http://x" }) = Except.ok true
    ∧ Except.map Article.content
        (generate_wordpress_article
          { date_time := some ⟨2024, 3, 25, 18, 30, 0, some "UTC"⟩ })
        = Except.ok
            (introText { date_time := some ⟨2024, 3, 25, 18, 30, 0, some "UTC"⟩ }
                ⟨2024, 3, 25, 18, 30, 0, some "UTC"⟩
                (parisFromUTC ⟨2024, 3, 25, 18, 30, 0, some "UTC"⟩)
              ++ moreText ++ questionsText [] ++ closingText) := by
  refine ⟨?_, ?_, ?_, ?_⟩
  · exact (livestream_paragraph_iff
      { date_time := some ⟨2024, 3, 25, 18, 30, 0, some "UTC"⟩,
        livestream := "http://x" } ⟨2024, 3, 25, 18, 30, 0, some "UTC"⟩ rfl).1
  · exact (livestream_paragraph_iff
      { date_time := some ⟨2024, 3, 25, 18, 30, 0, some "UTC"⟩,
        livestream := "http://x" } ⟨2024, 3, 25, 18, 30, 0, some "UTC"⟩ rfl).2.1
  · exact (livestream_paragraph_iff
      { date_time := some ⟨2024, 3, 25, 18, 30, 0, some "UTC"⟩,
        livestream := "http://x" } ⟨2024, 3, 25, 18, 30, 0, some "UTC"⟩ rfl).2.2.1
      (by decide)
  · exact (livestream_paragraph_iff
      { date_time := some ⟨2024, 3, 25, 18, 30, 0, some "UTC"⟩ }
      ⟨2024, 3, 25, 18, 30, 0, some "UTC"⟩ rfl).2.2.2 rfl

/-! ### Claim C9 -/

/-- The per-line selector the question pass applies once it has been armed
by a `Proposed questions` line: a line is kept (trimmed) when it does not
itself contain the marker (such lines only re-arm the scan and are
skipped), is non-blank, does not start with `===`, and starts with one or
more digits followed by a period. -/
def qSel (line : String) : Option String :=
  if !(pyContains line "Proposed questions") && (pyStrip line != "")
      && !(pyStarts line "===") && startsNumDot (pyStrip line) then
    some (pyStrip line)
  else none

theorem questionsGo_armed (post : List String) :
    questionsGo true post = post.filterMap qSel := by
  induction post with
  | nil => rfl
  | cons l ls ih =>
    by_cases h1 : pyContains l "Proposed questions" = true
    · simp [questionsGo, List.filterMap_cons, qSel, h1, ih]
    · have h1' : pyContains l "Proposed questions" = false := by simpa using h1
      by_cases h2 : (pyStrip l != "") = true
      · by_cases h3 : pyStarts l "===" = true
        · simp [questionsGo, List.filterMap_cons, qSel, h1', h2, h3, ih]
        · have h3' : pyStarts l "===" = false := by simpa using h3
          by_cases h4 : startsNumDot (pyStrip l) = true
          · simp [questionsGo, List.filterMap_cons, qSel, h1', h2, h3', h4, ih]
          · have h4' : startsNumDot (pyStrip l) = false := by simpa using h4
            simp [questionsGo, List.filterMap_cons, qSel, h1', h2, h3', h4', ih]
      · have h2' : (pyStrip l != "") = false := by simpa using h2
        simp [questionsGo, List.filterMap_cons, qSel, h1', h2', ih]

theorem questionsGo_idle (pre : List String) (rest : List String)
    (hpre : ∀ l ∈ pre, pyContains l "Proposed questions" = false) :
    questionsGo false (pre ++ rest) = questionsGo false rest := by
  induction pre with
  | nil => rfl
  | cons l ls ih =>
    have h1 := hpre l (by simp)
    rw [List.cons_append]
    simp only [questionsGo, h1, Bool.false_eq_true, if_false, Bool.false_and]
    exact ih (fun x hx => hpre x (by simp [hx]))

/-- C9 (counterexample): a numbered line that itself contains the
`Proposed questions` marker is skipped by the `continue` of the marker
test, so it is not appended even though it is non-blank, does not start
with `===` and starts with digits followed by a period. -/
theorem questions_marker_line_counterexample :
    parseSection "Proposed questions\n1. Proposed questions test\n2. B"
      = Except.ok { ({} : ArissContact) with questions := ["2. B"] }
    ∧ (["2. B"] : List String) ≠ ["1. Proposed questions test", "2. B"] := by
  exact ⟨by decide, by decide⟩

/-- C9 (amended): for a block whose line sequence splits as `pre`, then a
first line containing `Proposed questions`, then `post`, the parsed
contact's questions are exactly the trimmed lines of `post` that do not
themselves contain `Proposed questions`, are non-blank, do not start with
`===`, and after trimming start with one or more digits followed by a
period, in order of appearance. -/
theorem questions_extraction (sec : String) (c : ArissContact)
    (pre post : List String) (t : String)
    (hsplit : pySplit (pyStrip sec) "\n" = pre ++ t :: post)
    (hpre : ∀ l ∈ pre, pyContains l "Proposed questions" = false)
    (ht : pyContains t "Proposed questions" = true)
    (hok : parseSection sec = Except.ok c) :
    c.questions = post.filterMap qSel := by
  simp only [parseSection] at hok
  cases hf : foldLines {} (pySplit (pyStrip sec) "\n") with
  | error e => rw [hf] at hok; exact absurd hok (by simp)
  | ok cf =>
    rw [hf] at hok
    simp only [Except.ok.injEq] at hok
    subst hok
    show questionsOf (pySplit (pyStrip sec) "\n") = post.filterMap qSel
    rw [questionsOf, hsplit, questionsGo_idle pre (t :: post) hpre]
    simp only [questionsGo, ht, if_true]
    exact questionsGo_armed post

/-- C9 (witness): the spec's two-question block yields exactly its two
questions, in order. -/
theorem questions_extraction_witness :
    ({ ({} : ArissContact) with
        questions := ["1. What is it like in space?", "2. How do you sleep?"] } :
      ArissContact).questions
      = List.filterMap qSel
          ["1. What is it like in space?", "2. How do you sleep?"] := by
  exact questions_extraction
    "Proposed questions\n1. What is it like in space?\n2. How do you sleep?"
    { ({} : ArissContact) with
        questions := ["1. What is it like in space?", "2. How do you sleep?"] }
    [] ["1. What is it like in space?", "2. How do you sleep?"]
    "Proposed questions" (by decide) (by decide) (by decide) (by decide)

/-! ### Claim C10 -/

/-- C10 (counterexample): the block-level half of the claim fails for the
conditionally assigned fields.  In the block with via lines
"A, B, direct via W1AW" and then "C telebridge via", both lines match the
via trigger; the last matching line's extraction assigns only the school
(its comma split has a single segment, so the `len > 1` branch with
location, contact type and callsign is skipped), yet the folded contact's
callsign is "W1AW" — the value from the earlier matching line, not a value
extracted from the last one. -/
theorem last_match_callsign_counterexample :
    foldLines {} ["A, B, direct via W1AW", "C telebridge via"]
      = Except.ok { ({} : ArissContact) with
          school := "C telebridge via", location := "B",
          contact_type := "direct", callsign := "W1AW" }
    ∧ processLine {} "C telebridge via"
      = Except.ok { ({} : ArissContact) with school := "C telebridge via" }
    ∧ ("W1AW" : String) ≠ "" := by
  exact ⟨by decide, by decide, by decide⟩

/-- C10 (amended): per line, at most one extraction rule fires — the rules
are tried in the order via, frequency, crewmember, go-for-date, livestream,
mentor, only the first rule whose trigger matches executes, and it can
change only its own fields, so a line carrying two trigger substrings sets
only the earlier rule's fields (first conjunct, universally over lines,
including the astronaut value equation for the crewmember rule).  Within a
block, each scalar field its rule unconditionally assigns — school,
frequency, the astronaut name, livestream, mentor — holds the value
extracted from the last line the chain dispatched to that rule (remaining
conjuncts, for a block whose last such line is `l`); fields assigned only
conditionally (location, contact type, callsign, the astronaut callsign,
the scheduled instant and elevation) may retain a value from an earlier
matching line, as the counterexample shows. -/
theorem rule_dispatch_last_match (c c' : ArissContact) (pre post : List String)
    (l : String) (h : foldLines c (pre ++ l :: post) = Except.ok c') :
    (∀ (c0 c0' : ArissContact) (line : String),
      processLine c0 line = Except.ok c0' →
      (viaTrigger line = true →
        c0' = { c0 with
          school := c0'.school, location := c0'.location,
          contact_type := c0'.contact_type, callsign := c0'.callsign }
        ∧ c0'.school = pyStrip ((pySplit line ",").getD 0 ""))
      ∧ (viaTrigger line = false → freqTrigger line = true →
        c0' = { c0 with frequency := c0'.frequency }
        ∧ some c0'.frequency = ((pySplit line "be")[1]?).map pyStrip)
      ∧ (viaTrigger line = false → freqTrigger line = false → crewTrigger line = true →
        c0' = { c0 with
          astronaut := c0'.astronaut,
          astronaut_callsign := c0'.astronaut_callsign }
        ∧ some c0'.astronaut = crewNameOf line)
      ∧ (viaTrigger line = false → freqTrigger line = false → crewTrigger line = false →
         goTrigger line = true →
        c0' = { c0 with date_time := c0'.date_time, elevation := c0'.elevation })
      ∧ (viaTrigger line = false → freqTrigger line = false → crewTrigger line = false →
         goTrigger line = false → liveTrigger line = true →
        c0' = { c0 with livestream := c0'.livestream }
        ∧ some c0'.livestream = ((pySplit line "at")[1]?).map pyStrip)
      ∧ (viaTrigger line = false → freqTrigger line = false → crewTrigger line = false →
         goTrigger line = false → liveTrigger line = false → mentorTrigger line = true →
        c0' = { c0 with mentor := c0'.mentor }
        ∧ some c0'.mentor = ((pySplit line "is")[1]?).map pyStrip)
      ∧ (viaTrigger line = false → freqTrigger line = false → crewTrigger line = false →
         goTrigger line = false → liveTrigger line = false → mentorTrigger line = false →
        c0' = c0))
    ∧ (viaTrigger l = true → (∀ x ∈ post, viaTrigger x = false) →
        c'.school = pyStrip ((pySplit l ",").getD 0 ""))
    ∧ (firesFreq l = true → (∀ x ∈ post, firesFreq x = false) →
        some c'.frequency = ((pySplit l "be")[1]?).map pyStrip)
    ∧ (firesCrew l = true → (∀ x ∈ post, firesCrew x = false) →
        some c'.astronaut = crewNameOf l)
    ∧ (firesLive l = true → (∀ x ∈ post, firesLive x = false) →
        some c'.livestream = ((pySplit l "at")[1]?).map pyStrip)
    ∧ (firesMentor l = true → (∀ x ∈ post, firesMentor x = false) →
        some c'.mentor = ((pySplit l "is")[1]?).map pyStrip) := by
  rw [foldLines_append] at h
  cases hpre : foldLines c pre with
  | error e => rw [hpre] at h; exact absurd h (by simp)
  | ok c1 =>
    rw [hpre] at h
    simp only [foldLines] at h
    cases hl : processLine c1 l with
    | error e => rw [hl] at h; exact absurd h (by simp)
    | ok c2 =>
      rw [hl] at h
      refine ⟨?_, ?_, ?_, ?_, ?_, ?_⟩
      · intro c0 c0' line h0
        have hf := processLine_frame c0 c0' line h0
        exact ⟨hf.1, hf.2.1,
          fun hv hfq hcr => ⟨hf.2.2.1 hv hfq hcr,
            processLine_crew_astronaut c0 c0' line hv hfq hcr h0⟩,
          hf.2.2.2.1, hf.2.2.2.2.1, hf.2.2.2.2.2.1, hf.2.2.2.2.2.2⟩
      · intro hvl hpost
        have hval := ((processLine_frame c1 c2 l hl).1 hvl).2
        have hkeep : c'.school = c2.school :=
          foldLines_keep ArissContact.school viaTrigger
            (fun a b y hy hb => ((processLine_untouched a b y hb).1 hy).1)
            post c2 c' hpost h
        rw [hkeep, hval]
      · intro hfl hpost
        have hb : viaTrigger l = false ∧ freqTrigger l = true := by
          simpa [firesFreq, Bool.and_eq_true, Bool.not_eq_true'] using hfl
        have hval := ((processLine_frame c1 c2 l hl).2.1 hb.1 hb.2).2
        have hkeep : c'.frequency = c2.frequency :=
          foldLines_keep ArissContact.frequency firesFreq
            (fun a b y hy hb => (processLine_untouched a b y hb).2.1 hy)
            post c2 c' hpost h
        rw [hkeep]
        exact hval
      · intro hcl hpost
        have hb : (viaTrigger l = false ∧ freqTrigger l = false)
            ∧ crewTrigger l = true := by
          simpa [firesCrew, Bool.and_eq_true, Bool.not_eq_true'] using hcl
        have hval := processLine_crew_astronaut c1 c2 l hb.1.1 hb.1.2 hb.2 hl
        have hkeep : c'.astronaut = c2.astronaut :=
          foldLines_keep ArissContact.astronaut firesCrew
            (fun a b y hy hb => ((processLine_untouched a b y hb).2.2.1 hy).1)
            post c2 c' hpost h
        rw [hkeep]
        exact hval
      · intro hll hpost
        have hb : (((viaTrigger l = false ∧ freqTrigger l = false)
            ∧ crewTrigger l = false) ∧ goTrigger l = false)
            ∧ liveTrigger l = true := by
          simpa [firesLive, Bool.and_eq_true, Bool.not_eq_true'] using hll
        have hval := ((processLine_frame c1 c2 l hl).2.2.2.2.1
          hb.1.1.1.1 hb.1.1.1.2 hb.1.1.2 hb.1.2 hb.2).2
        have hkeep : c'.livestream = c2.livestream :=
          foldLines_keep ArissContact.livestream firesLive
            (fun a b y hy hb => (processLine_untouched a b y hb).2.2.2.2.1 hy)
            post c2 c' hpost h
        rw [hkeep]
        exact hval
      · intro hml hpost
        have hb : ((((viaTrigger l = false ∧ freqTrigger l = false)
            ∧ crewTrigger l = false) ∧ goTrigger l = false)
            ∧ liveTrigger l = false) ∧ mentorTrigger l = true := by
          simpa [firesMentor, Bool.and_eq_true, Bool.not_eq_true'] using hml
        have hval := ((processLine_frame c1 c2 l hl).2.2.2.2.2.1
          hb.1.1.1.1.1 hb.1.1.1.1.2 hb.1.1.1.2 hb.1.1.2 hb.1.2 hb.2).2
        have hkeep : c'.mentor = c2.mentor :=
          foldLines_keep ArissContact.mentor firesMentor
            (fun a b y hy hb => (processLine_untouched a b y hb).2.2.2.2.2 hy)
            post c2 c' hpost h
        rw [hkeep]
        exact hval

/-- C10 (witness): a block with two frequency lines keeps the value of the
last one, and a line carrying both the via and the frequency trigger
substrings sets only the via-rule fields. -/
theorem rule_dispatch_last_match_witness :
    some ({ frequency := "145.800 MHz" } : ArissContact).frequency
      = ((pySplit "The downlink frequency will be 145.800 MHz" "be")[1]?).map pyStrip
    ∧ ({ school := "Nice School", location := "Paris",
         contact_type := "direct",
         callsign := "W1AW with frequency info" } : ArissContact).frequency = "" := by
  constructor
  · exact (rule_dispatch_last_match {} { frequency := "145.800 MHz" }
      ["The downlink frequency will be 437.800 MHz"] []
      "The downlink frequency will be 145.800 MHz" (by decide)).2.2.1
      (by decide) (by simp)
  · have h := (rule_dispatch_last_match {}
      { school := "Nice School", location := "Paris",
        contact_type := "direct",
        callsign := "W1AW with frequency info" } []
      [] "Nice School, Paris, direct via W1AW with frequency info" (by decide)).1
      {}
      { school := "Nice School", location := "Paris",
        contact_type := "direct",
        callsign := "W1AW with frequency info" }
      "Nice School, Paris, direct via W1AW with frequency info" (by decide)
    exact congrArg ArissContact.frequency (h.1 (by decide)).1

/-- C1 (witness): the amended statement applied to the fresh contact. -/
theorem go_line_stores_instant_and_elevation_witness :
    processLine {} "Contact is go for: 25 March 2024 18:30 UTC, max elevation 45 degrees"
      = Except.ok { ({} : ArissContact) with
          date_time := some ⟨2024, 3, 25, 18, 30, 0, some "UTC"⟩,
          elevation := ", max elevation 45 degrees" } :=
  go_line_stores_instant_and_elevation {}

/-- C3 (witness): the amended statement at a concrete newsletter text. -/
theorem sections_processed_witness :
    parse_contacts "a" = foldSectionsNB [] (splitSections "a")
    ∧ pyStrip "a" ≠ "" := by
  exact ⟨(sections_processed "a").1, (sections_processed "a").2.1 "a" (by decide)⟩
